import Mathlib

/-!
Verification of the resource cache / refresh subsystem and the resource-URI
parser of the azure-kusto-rust ingestion client.

The Rust sources are shallowly embedded:
* time is modelled by natural-number instants (an `Instant` is a `Nat`, a
  `Duration` is a `Nat`); the elapsed time since an instant `t` at instant
  `now` is `now - t`;
* strings are modelled by lists of characters (`Str`), since the string
  operations used by the parser are plain structural functions on the
  character sequence;
* `async` functions become pure functions: an awaited callback future is its
  resolved `Except` result, and the state behind the lock is passed and
  returned explicitly;
* the concurrent behaviour of the read/write lock in
  `ThreadSafeCachedValue::get` is modelled by a small-step interleaving
  semantics (`Sys`, `step`, `run`) further below.
-/

namespace KustoVerify

/-- Character-list strings, used so that all operations reduce structurally. -/
abbrev Str := List Char

/-! ## `cache.rs`: `Cached<T>` -/

/-- `Cached<T>` from `cache.rs`: a value together with the instant it was last
updated and the period after which it is considered expired. -/
structure Cached (T : Type) where
  inner : T
  last_updated : Nat
  refresh_period : Nat
deriving Repr, DecidableEq

namespace Cached

/-- `Cached::new`: stores the value with `last_updated = Instant::now()`. -/
def new (inner : T) (now refresh_period : Nat) : Cached T :=
  { inner := inner, last_updated := now, refresh_period := refresh_period }

/-- `Cached::get`: returns the stored value. -/
def get (c : Cached T) : T := c.inner

/-- `Cached::is_expired`: `self.last_updated.elapsed() >= self.refresh_period`. -/
def is_expired (c : Cached T) (now : Nat) : Bool :=
  c.refresh_period ≤ now - c.last_updated

/-- `Cached::update`: replaces the value and resets `last_updated` to now. -/
def update (c : Cached T) (inner : T) (now : Nat) : Cached T :=
  { c with inner := inner, last_updated := now }

end Cached

/-! ## `cache.rs`: `ThreadSafeCachedValue<T>` (sequential semantics)

`ThreadSafeCachedValue<T>` wraps a `Cached<Option<T>>` behind an
`RwLock`.  For a single caller the lock is uncontended, so `get` is a pure
function of the cache state, the current instant and the resolved callback
result.  The outcome records the returned result, the cache state after the
call, and whether the callback future was awaited. -/

deriving instance DecidableEq for Except

/-- Result of one `ThreadSafeCachedValue::get` call. -/
structure GetOutcome (T E : Type) where
  result : Except E T
  cache : Cached (Option T)
  invoked : Bool
deriving Repr, DecidableEq

namespace ThreadSafeCachedValue

/-- `ThreadSafeCachedValue::new`: a cache holding `None`, timestamped now. -/
def new (T : Type) (refresh_period now : Nat) : Cached (Option T) :=
  Cached.new none now refresh_period

/-- The tail of `get` after the cache checks: await the callback; on error
propagate it leaving the cache untouched, on success update the cache. -/
def runCallback (cache : Cached (Option T)) (now : Nat) (callback : Except E T) :
    GetOutcome T E :=
  match callback with
  | Except.error e => { result := Except.error e, cache := cache, invoked := true }
  | Except.ok fetched_value =>
      { result := Except.ok fetched_value
        cache := cache.update (some fetched_value) now
        invoked := true }

/-- The write-lock phase of `get`: re-check the cache, then fetch if needed. -/
def getWrite (cache : Cached (Option T)) (now : Nat) (callback : Except E T) :
    GetOutcome T E :=
  if !cache.is_expired now then
    match cache.get with
    | some cached_value =>
        { result := Except.ok cached_value, cache := cache, invoked := false }
    | none => runCallback cache now callback
  else runCallback cache now callback

/-- `ThreadSafeCachedValue::get`: read-lock check, then the write-lock phase
(which in the sequential semantics re-checks the same state). -/
def get (cache : Cached (Option T)) (now : Nat) (callback : Except E T) :
    GetOutcome T E :=
  if !cache.is_expired now then
    match cache.get with
    | some cached_value =>
        { result := Except.ok cached_value, cache := cache, invoked := false }
    | none => getWrite cache now callback
  else getWrite cache now callback

end ThreadSafeCachedValue

/-! ## `resource_uri.rs`: `ResourceUri`

Strings are `List Char`; the splitting helpers below are structural models of
the `str` methods the source uses. -/

/-- Model of `str::split(c)`: split at every occurrence of `c`. -/
def splitOnChar (c : Char) : Str → List Str
  | [] => [[]]
  | a :: rest =>
      let r := splitOnChar c rest
      if a = c then [] :: r
      else
        match r with
        | [] => [[a]]
        | s :: ss => (a :: s) :: ss

/-- Model of `str::split_once(c)`: split at the first occurrence of `c`. -/
def splitOnce (c : Char) : Str → Option (Str × Str)
  | [] => none
  | a :: rest =>
      if a = c then some ([], rest)
      else
        match splitOnce c rest with
        | none => none
        | some (pre, post) => some (a :: pre, post)

/-- The host of a parsed URL, as classified by the `url` crate. -/
inductive UrlHost where
  | domain (s : Str)
  | ipv4
  | ipv6
deriving Repr, DecidableEq

/-- The parts of a parsed URL that `ResourceUri::try_from` consumes. -/
structure ParsedUrl where
  scheme : Str
  host : Option UrlHost
  path_segments : Option (List Str)
  query : Option Str
deriving Repr, DecidableEq

/-- `ResourceUriError` from `resource_uri.rs`. -/
inductive ResourceUriError where
  | InvalidScheme (s : Str)
  | InvalidHost
  | MissingObjectName
  | MissingSasToken
  | MissingAccountName
  | ParseError
  | AzureError
deriving Repr, DecidableEq

/-- The literal scheme the source compares against. -/
def httpsStr : Str := "https".data

/-- Modelled from the spec: host classification by the external `url` crate —
a bracketed host is an IPv6 literal, four all-digit dot-separated parts form
an IPv4 literal, and anything else is a textual domain. -/
def classifyHost (h : Str) : UrlHost :=
  match h with
  | '[' :: _ => UrlHost.ipv6
  | _ =>
      let parts := splitOnChar '.' h
      if parts.length == 4 &&
          parts.all (fun p => !p.isEmpty && p.all Char.isDigit) then
        UrlHost.ipv4
      else UrlHost.domain h

/-- Modelled from the spec: the external `url` crate parser, restricted to the
absolute `scheme://host/path?query` shapes this subsystem receives.  The path
of a URL with no `/` after the host is normalised to the single empty
segment, as the `url` crate does. -/
def parseUrl (s : Str) : Except ResourceUriError ParsedUrl :=
  match splitOnce ':' s with
  | none => Except.error ResourceUriError.ParseError
  | some (scheme, rest) =>
      if scheme.isEmpty then Except.error ResourceUriError.ParseError
      else
        match rest with
        | '/' :: '/' :: rest2 =>
            let (beforeQ, query) :=
              match splitOnce '?' rest2 with
              | some (b, q) => (b, some q)
              | none => (rest2, none)
            let (hostStr, pathSegs) :=
              match splitOnce '/' beforeQ with
              | some (h, p) => (h, splitOnChar '/' p)
              | none => (beforeQ, [[]])
            if hostStr.isEmpty then Except.error ResourceUriError.ParseError
            else
              Except.ok
                { scheme := scheme, host := some (classifyHost hostStr),
                  path_segments := some pathSegs, query := query }
        | _ => Except.error ResourceUriError.ParseError

/-- Modelled from the spec: the external `StorageCredentials::sas_token`
constructor — the query string must parse as ampersand-separated key/value
SAS parameters, each containing an equals sign; otherwise it is an error. -/
def sasTokenParse (s : Str) : Option (List (Str × Str)) :=
  (splitOnChar '&' s).mapM (splitOnce '=')

/-- `ResourceUri` from `resource_uri.rs`, with the SAS credential as its
parsed key/value parameters. -/
structure ResourceUri where
  service_uri : Str
  object_name : Str
  account_name : Str
  sas_token : List (Str × Str)
deriving Repr, DecidableEq

/-- `TryFrom<&str> for ResourceUri`, after URL parsing: scheme check, host
check, account-name split, object-name extraction, SAS-token query check, in
the source's order. -/
def ResourceUri.try_from (u : ParsedUrl) : Except ResourceUriError ResourceUri :=
  if u.scheme = httpsStr then
    match u.host with
    | some (UrlHost.domain host_string) =>
        let service_uri := "https://".data ++ host_string
        match splitOnce '.' host_string with
        | none => Except.error ResourceUriError.MissingAccountName
        | some (account_name, _service_endpoint) =>
            match u.path_segments with
            | none => Except.error ResourceUriError.MissingObjectName
            | some path_segments =>
                match path_segments with
                | [] => Except.error ResourceUriError.MissingObjectName
                | object_name :: rest =>
                    if object_name.isEmpty then
                      Except.error ResourceUriError.MissingObjectName
                    else if !rest.isEmpty then
                      Except.error ResourceUriError.MissingObjectName
                    else
                      match u.query with
                      | none => Except.error ResourceUriError.MissingSasToken
                      | some q =>
                          match sasTokenParse q with
                          | none => Except.error ResourceUriError.AzureError
                          | some sas_token =>
                              Except.ok
                                { service_uri := service_uri
                                  object_name := object_name
                                  account_name := account_name
                                  sas_token := sas_token }
    | _ => Except.error ResourceUriError.InvalidHost
  else Except.error (ResourceUriError.InvalidScheme u.scheme)

/-- Full parsing pipeline: URL parsing, then `ResourceUri::try_from`. -/
def ResourceUri.parse (s : Str) : Except ResourceUriError ResourceUri :=
  match parseUrl s with
  | Except.error e => Except.error e
  | Except.ok u => ResourceUri.try_from u

/-- A path-segment list that fails the object-name extraction: absent, empty,
first segment empty, or more than one segment. -/
def badPath : Option (List Str) → Bool
  | none => true
  | some [] => true
  | some (o :: rest) => o.isEmpty || !rest.isEmpty

/-! ## `authorization_context.rs`: `AuthorizationContext`

The tabular query-result shape is the external contract of the query
executor; per the spec, a result is a list of tables, each table exposing
named columns (index lookup by name) and rows indexable by column index, with
JSON cell values carrying an is-this-a-string predicate. -/

/-- A JSON cell value, as far as the validation pipeline inspects it. -/
inductive JsonValue where
  | null
  | bool (b : Bool)
  | num (n : Int)
  | str (s : Str)
  | arr
  | obj
deriving Repr, DecidableEq

/-- `serde_json::Value::as_str`: `Some` exactly on string values. -/
def JsonValue.as_str : JsonValue → Option Str
  | JsonValue.str s => some s
  | _ => none

/-- A result table: column names and rows of cells. -/
structure TableV1 where
  columns : List Str
  rows : List (List JsonValue)
deriving Repr, DecidableEq

/-- A query result: a list of tables. -/
structure KustoResultsV1 where
  tables : List TableV1
deriving Repr, DecidableEq

/-- `KustoIdentityTokenError` from `authorization_context.rs`. -/
inductive KustoIdentityTokenError where
  | ExpectedOneTable (n : Nat)
  | ExpectedOneRow (n : Nat)
  | ColumnNotFound (name : Str)
  | InvalidJSONResponse (v : JsonValue)
  | EmptyToken
  | KustoError
deriving Repr, DecidableEq

/-- The fixed column name `AuthorizationContext`. -/
def AUTHORIZATION_CONTEXT : Str := "AuthorizationContext".data

/-- Modelled from the spec: `get_column_index` (in the crate's
`resource_manager/utils`, not under the provided sources) — index lookup of a
named column in a table. -/
def get_column_index (t : TableV1) (name : Str) : Option Nat :=
  t.columns.findIdx? (fun c => c = name)

/-- `AuthorizationContext::query_kusto_identity_token`, with the awaited
management-query result as input: validate the tabular shape and extract the
token. -/
def query_kusto_identity_token (results : Except Unit KustoResultsV1) :
    Except KustoIdentityTokenError Str :=
  match results with
  | Except.error _ => Except.error KustoIdentityTokenError.KustoError
  | Except.ok results =>
      match results.tables with
      | [a] =>
          match get_column_index a AUTHORIZATION_CONTEXT with
          | none =>
              Except.error
                (KustoIdentityTokenError.ColumnNotFound AUTHORIZATION_CONTEXT)
          | some index =>
              match a.rows with
              | [row] =>
                  match row.get? index with
                  | none =>
                      Except.error
                        (KustoIdentityTokenError.ColumnNotFound
                          AUTHORIZATION_CONTEXT)
                  | some token =>
                      match token.as_str with
                      | none =>
                          Except.error
                            (KustoIdentityTokenError.InvalidJSONResponse token)
                      | some token =>
                          if token.all Char.isWhitespace then
                            Except.error KustoIdentityTokenError.EmptyToken
                          else Except.ok token
              | _ =>
                  Except.error
                    (KustoIdentityTokenError.ExpectedOneRow a.rows.length)
      | _ =>
          Except.error
            (KustoIdentityTokenError.ExpectedOneTable results.tables.length)

/-- `AuthorizationContext::get`: fetch the token through the cache, with
`query_kusto_identity_token` as the fetch callback. -/
def AuthorizationContext.get (token_cache : Cached (Option Str)) (now : Nat)
    (results : Except Unit KustoResultsV1) :
    GetOutcome Str KustoIdentityTokenError :=
  ThreadSafeCachedValue.get token_cache now (query_kusto_identity_token results)

/-- The cached-token invariant: any held token has a non-whitespace character
(so it is neither empty nor all-whitespace). -/
def tokenInvariant (c : Cached (Option Str)) : Prop :=
  ∀ t, c.inner = some t → t.all Char.isWhitespace = false

/-! ## Interleaving semantics of `ThreadSafeCachedValue::get`

Each task runs one `get` call.  A task's position in the code is its phase:
about to run the read-lock check (`start`), between releasing the read lock
and acquiring the write lock (`waitWrite`), holding the write lock while
awaiting the callback (`fetching`), or finished (`done`).  The lock state
records which task, if any, holds the exclusive write lock; the read-lock
check and the write-lock re-check are atomic steps (they do not mutate the
cache), and a blocked task's step is a no-op.  Time does not advance during a
run: all steps happen at the system's single instant `now`. -/

/-- The control point of one `get` call. -/
inductive Phase (T E : Type) where
  | start
  | waitWrite
  | fetching
  | done (r : Except E T)
deriving Repr, DecidableEq

/-- One task: its control point and the result its callback will resolve to. -/
structure Task (T E : Type) where
  phase : Phase T E
  callback : Except E T
deriving Repr, DecidableEq

/-- The shared system state: the cache, the tasks, the write-lock holder and
the current instant. -/
structure Sys (T E : Type) where
  cache : Cached (Option T)
  tasks : List (Task T E)
  writer : Option Nat
  now : Nat
deriving Repr, DecidableEq

/-- Replace task `i`'s state. -/
def setTask (sys : Sys T E) (i : Nat) (tk : Task T E) : Sys T E :=
  { sys with tasks := sys.tasks.set i tk }

/-- One step of task `i` (currently in state `tk`). -/
def stepTask (sys : Sys T E) (i : Nat) (tk : Task T E) : Sys T E :=
  match tk.phase with
  | Phase.start =>
      -- acquire the read lock: blocked while a writer holds the lock
      if sys.writer.isSome then sys
      else if !sys.cache.is_expired sys.now then
        match sys.cache.get with
        | some v => setTask sys i { tk with phase := Phase.done (Except.ok v) }
        | none => setTask sys i { tk with phase := Phase.waitWrite }
      else setTask sys i { tk with phase := Phase.waitWrite }
  | Phase.waitWrite =>
      -- acquire the write lock: blocked while another writer holds it
      if sys.writer.isSome then sys
      else if !sys.cache.is_expired sys.now then
        match sys.cache.get with
        | some v =>
            -- re-check succeeds: return the value, lock released at once
            setTask sys i { tk with phase := Phase.done (Except.ok v) }
        | none =>
            { setTask sys i { tk with phase := Phase.fetching } with
                writer := some i }
      else
        { setTask sys i { tk with phase := Phase.fetching } with
            writer := some i }
  | Phase.fetching =>
      -- the callback resolves while task i holds the write lock
      match tk.callback with
      | Except.error e =>
          { setTask sys i { tk with phase := Phase.done (Except.error e) } with
              writer := none }
      | Except.ok v =>
          { setTask sys i { tk with phase := Phase.done (Except.ok v) } with
              writer := none
              cache := sys.cache.update (some v) sys.now }
  | Phase.done _ => sys

/-- One scheduler step: run task `i` if it exists. -/
def step (sys : Sys T E) (i : Nat) : Sys T E :=
  match sys.tasks.get? i with
  | none => sys
  | some tk => stepTask sys i tk

/-- Run a whole schedule. -/
def run (sys : Sys T E) : List Nat → Sys T E
  | [] => sys
  | i :: rest => run (step sys i) rest

/-- Lock discipline: a fetching task holds the write lock. -/
def holdsFetchInv (sys : Sys T E) : Prop :=
  ∀ i (hi : i < sys.tasks.length),
    (sys.tasks.get ⟨i, hi⟩).phase = Phase.fetching → sys.writer = some i

/-- The state right after a successful refresh: the cache holds an unexpired
value and the write lock is free. -/
def freshNoWriter (sys : Sys T E) : Prop :=
  sys.cache.inner ≠ none ∧ sys.cache.is_expired sys.now = false ∧
    sys.writer = none

/-- No task is in the middle of running its fetch callback. -/
def NoFetchPhases (sys : Sys T E) : Prop :=
  ∀ j (hj : j < sys.tasks.length),
    (sys.tasks.get ⟨j, hj⟩).phase ≠ Phase.fetching

/-- A concrete two-task scenario on a fresh cache: task 0 waits for the write
lock, task 1 is about to run its read-lock check. -/
def sysW : Sys Nat Unit :=
  { cache := { inner := some 5, last_updated := 0, refresh_period := 10 }
    tasks := [{ phase := Phase.waitWrite, callback := Except.ok 6 },
              { phase := Phase.start, callback := Except.error () }]
    writer := none
    now := 0 }


/-- A well-shaped identity-token query result used as a concrete scenario. -/
def goodResults : Except Unit KustoResultsV1 :=
  Except.ok ⟨[⟨[AUTHORIZATION_CONTEXT], [[JsonValue.str "tok".data]]⟩]⟩

/-! ### Basic lemmas about `ThreadSafeCachedValue.get` -/

/-- When the cache holds an unexpired value, `get` serves it from the cache. -/
theorem get_hit {T E : Type} {cache : Cached (Option T)} {now : Nat} {v : T}
    (cb : Except E T) (h1 : cache.is_expired now = false) (h2 : cache.inner = some v) :
    ThreadSafeCachedValue.get cache now cb =
      { result := Except.ok v, cache := cache, invoked := false } := by
  unfold ThreadSafeCachedValue.get
  rw [h1]
  simp [Cached.get, h2]

/-- When the cache is expired or empty, `get` awaits the callback. -/
theorem get_miss {T E : Type} {cache : Cached (Option T)} {now : Nat}
    (cb : Except E T) (h : cache.is_expired now = true ∨ cache.inner = none) :
    ThreadSafeCachedValue.get cache now cb =
      ThreadSafeCachedValue.runCallback cache now cb := by
  unfold ThreadSafeCachedValue.get ThreadSafeCachedValue.getWrite
  cases h with
  | inl h => rw [h]; simp
  | inr h => cases hexp : cache.is_expired now <;> simp [Cached.get, h]

/-- The callback is awaited exactly when the value is expired or absent. -/
theorem get_invoked {T E : Type} (cache : Cached (Option T)) (now : Nat)
    (cb : Except E T) :
    (ThreadSafeCachedValue.get cache now cb).invoked =
      (cache.is_expired now || cache.inner.isNone) := by
  cases hexp : cache.is_expired now with
  | true =>
      rw [get_miss cb (Or.inl hexp)]
      cases cb <;> simp [ThreadSafeCachedValue.runCallback]
  | false =>
      cases hin : cache.inner with
      | none =>
          rw [get_miss cb (Or.inr hin)]
          cases cb <;> simp [ThreadSafeCachedValue.runCallback, hin]
      | some v => rw [get_hit cb hexp hin]; simp [hin]

/-- The outcome of an awaited callback, by cases on its result. -/
theorem runCallback_cases {T E : Type} (cache : Cached (Option T)) (now : Nat)
    (cb : Except E T) :
    (∀ e, cb = Except.error e →
      ThreadSafeCachedValue.runCallback cache now cb =
        { result := Except.error e, cache := cache, invoked := true }) ∧
    (∀ v, cb = Except.ok v →
      ThreadSafeCachedValue.runCallback cache now cb =
        { result := Except.ok v, cache := cache.update (some v) now,
          invoked := true }) := by
  constructor
  · intro e he; subst he; rfl
  · intro v hv; subst hv; rfl

/-! ### C1, C3, C4, C10 -/

/-- C1 counterexample: a freshly created cache holding `None` (as built by
`ThreadSafeCachedValue::new`) is NOT reported expired by `Cached::is_expired`,
although its value is `None` — refuting the claimed equivalence
`is_expired == (value is None) OR (now - last_updated >= refresh_period)`. -/
theorem c1_counterexample :
    (Cached.new (none : Option Nat) 0 5).inner = none ∧
    (Cached.new (none : Option Nat) 0 5).is_expired 0 = false := by decide

/-- C1 (amended): `Cached::is_expired` returns true iff the time elapsed since
`last_updated` is at least `refresh_period`, regardless of the held value; the
`None` case is handled separately by `ThreadSafeCachedValue::get`, whose
fetch-callback invocation condition is `is_expired OR value is None`. -/
theorem c1_is_expired_amended (T E : Type) (c : Cached (Option T)) (now : Nat)
    (cb : Except E T) :
    (c.is_expired now = true ↔ c.refresh_period ≤ now - c.last_updated) ∧
    (ThreadSafeCachedValue.get c now cb).invoked =
      (c.is_expired now || c.inner.isNone) := by
  refine ⟨?_, get_invoked c now cb⟩
  simp [Cached.is_expired]

/-- C10: `Cached::update` replaces the inner value, resets `last_updated` to
the current instant, and leaves `refresh_period` unchanged; `refresh_period`
is also never modified by `ThreadSafeCachedValue::get`. -/
theorem c10_update_frame (T E : Type) (c : Cached T) (v : T) (now : Nat)
    (c2 : Cached (Option T)) (n2 : Nat) (cb : Except E T) :
    (c.update v now).inner = v ∧
    (c.update v now).last_updated = now ∧
    (c.update v now).refresh_period = c.refresh_period ∧
    (ThreadSafeCachedValue.get c2 n2 cb).cache.refresh_period =
      c2.refresh_period := by
  refine ⟨rfl, rfl, rfl, ?_⟩
  cases hexp : c2.is_expired n2 with
  | true =>
      rw [get_miss cb (Or.inl hexp)]
      cases cb <;> simp [ThreadSafeCachedValue.runCallback, Cached.update]
  | false =>
      cases hin : c2.inner with
      | none =>
          rw [get_miss cb (Or.inr hin)]
          cases cb <;> simp [ThreadSafeCachedValue.runCallback, Cached.update]
      | some w => rw [get_hit cb hexp hin]

/-- C3 counterexample: for a cache state holding a fresh value, `get` with an
erroring callback does not return the error — it serves the cached value, so
the claim quantified over every cache state fails. -/
theorem c3_counterexample :
    (ThreadSafeCachedValue.get (Cached.new (some (7 : Nat)) 0 10) 0
        (Except.error (1 : Nat))).result = Except.ok 7 ∧
    (ThreadSafeCachedValue.get (Cached.new (some (7 : Nat)) 0 10) 0
        (Except.error (1 : Nat))).result ≠ Except.error 1 := by decide

/-- C3 (amended): for every cache state and erroring callback, `get` leaves the
cached value and timestamp exactly as they were; and whenever the fetch is
actually invoked (value expired or absent), the error is propagated to the
caller. -/
theorem c3_error_frame (T E : Type) (c : Cached (Option T)) (now : Nat) (e : E) :
    (ThreadSafeCachedValue.get c now (Except.error e)).cache = c ∧
    ((c.is_expired now = true ∨ c.inner = none) →
      (ThreadSafeCachedValue.get c now (Except.error e)).result =
        Except.error e) := by
  constructor
  · cases hexp : c.is_expired now with
    | true => rw [get_miss _ (Or.inl hexp)]; rfl
    | false =>
        cases hin : c.inner with
        | none => rw [get_miss _ (Or.inr hin)]; rfl
        | some w => rw [get_hit _ hexp hin]
  · intro h
    rw [get_miss _ h]
    rfl

/-- C3 witness: concrete empty cache, erroring callback. -/
theorem c3_witness :
    (ThreadSafeCachedValue.get (Cached.new (none : Option Nat) 0 5) 0
        (Except.error (2 : Nat))).cache = Cached.new (none : Option Nat) 0 5 ∧
    (ThreadSafeCachedValue.get (Cached.new (none : Option Nat) 0 5) 0
        (Except.error (2 : Nat))).result = Except.error 2 :=
  ⟨(c3_error_frame Nat Nat (Cached.new none 0 5) 0 2).1,
   (c3_error_frame Nat Nat (Cached.new none 0 5) 0 2).2 (Or.inr rfl)⟩

/-- C4: if the first `get` call invokes its callback and that callback
succeeds with `v`, then the first call returns `v`, and a second call less
than `refresh_period` after the first is served from the cache: it does not
invoke its own callback and also returns `v` — one fetch across both calls. -/
theorem c4_single_fetch (T E : Type) (c : Cached (Option T)) (t1 t2 : Nat)
    (v : T) (cb2 : Except E T)
    (hfirst : (ThreadSafeCachedValue.get c t1
        (Except.ok v : Except E T)).invoked = true)
    (hsep : t2 - t1 < c.refresh_period) :
    (ThreadSafeCachedValue.get c t1 (Except.ok v : Except E T)).result =
      Except.ok v ∧
    (ThreadSafeCachedValue.get
        (ThreadSafeCachedValue.get c t1 (Except.ok v : Except E T)).cache t2
        cb2).invoked = false ∧
    (ThreadSafeCachedValue.get
        (ThreadSafeCachedValue.get c t1 (Except.ok v : Except E T)).cache t2
        cb2).result = Except.ok v := by
  have hmiss : c.is_expired t1 = true ∨ c.inner = none := by
    rw [get_invoked] at hfirst
    rcases Bool.or_eq_true_iff.mp hfirst with h | h
    · exact Or.inl h
    · exact Or.inr (Option.isNone_iff_eq_none.mp h)
  have h1 : ThreadSafeCachedValue.get c t1 (Except.ok v : Except E T) =
      { result := Except.ok v, cache := c.update (some v) t1, invoked := true } := by
    rw [get_miss _ hmiss]; rfl
  rw [h1]
  have hfresh : (c.update (some v) t1).is_expired t2 = false := by
    simp [Cached.update, Cached.is_expired]
    omega
  have h2 := get_hit cb2 hfresh (v := v) (by rfl)
  rw [h2]
  exact ⟨rfl, rfl, rfl⟩

/-- C4 witness: empty cache, first fetch at instant 1 returns 42, second call
at instant 3 with refresh period 5. -/
theorem c4_witness :
    (ThreadSafeCachedValue.get (ThreadSafeCachedValue.new Nat 5 0) 1
        (Except.ok (42 : Nat) : Except Nat Nat)).result = Except.ok 42 ∧
    (ThreadSafeCachedValue.get
        (ThreadSafeCachedValue.get (ThreadSafeCachedValue.new Nat 5 0) 1
          (Except.ok (42 : Nat) : Except Nat Nat)).cache 3
        (Except.error (0 : Nat))).invoked = false ∧
    (ThreadSafeCachedValue.get
        (ThreadSafeCachedValue.get (ThreadSafeCachedValue.new Nat 5 0) 1
          (Except.ok (42 : Nat) : Except Nat Nat)).cache 3
        (Except.error (0 : Nat))).result = Except.ok 42 :=
  c4_single_fetch Nat Nat (ThreadSafeCachedValue.new Nat 5 0) 1 3 42
    (Except.error 0) (by decide) (by decide)

/-! ### C2, C7 -/

/-- C2 counterexample: for a URI whose host has no dot AND whose path has no
non-empty segment, the parser returns `MissingAccountName`, not the claimed
`MissingObjectName` — the account-name check runs before the object-name
check. -/
theorem c2_counterexample :
    ResourceUri.parse "https://hostnodot/".data =
      Except.error ResourceUriError.MissingAccountName ∧
    ResourceUri.parse "https://hostnodot/".data ≠
      Except.error ResourceUriError.MissingObjectName := by decide

/-- C2 (amended): the fail-fast validation order of `ResourceUri::try_from` is
scheme, then host, then ACCOUNT NAME, then object name, then SAS token: each
conjunct shows that the named check fires regardless of any later field. -/
theorem c2_validation_order (u : ParsedUrl) :
    (u.scheme ≠ httpsStr →
      ResourceUri.try_from u =
        Except.error (ResourceUriError.InvalidScheme u.scheme)) ∧
    (u.scheme = httpsStr → (∀ s, u.host ≠ some (UrlHost.domain s)) →
      ResourceUri.try_from u = Except.error ResourceUriError.InvalidHost) ∧
    (∀ h, u.scheme = httpsStr → u.host = some (UrlHost.domain h) →
      splitOnce '.' h = none →
      ResourceUri.try_from u =
        Except.error ResourceUriError.MissingAccountName) ∧
    (∀ h a r, u.scheme = httpsStr → u.host = some (UrlHost.domain h) →
      splitOnce '.' h = some (a, r) → badPath u.path_segments = true →
      ResourceUri.try_from u =
        Except.error ResourceUriError.MissingObjectName) ∧
    (∀ h a r seg, u.scheme = httpsStr → u.host = some (UrlHost.domain h) →
      splitOnce '.' h = some (a, r) → u.path_segments = some [seg] →
      seg.isEmpty = false → u.query = none →
      ResourceUri.try_from u =
        Except.error ResourceUriError.MissingSasToken) := by
  obtain ⟨sc, host, segs, q⟩ := u
  refine ⟨?_, ?_, ?_, ?_, ?_⟩
  · intro hne
    simp only [ResourceUri.try_from]
    rw [if_neg hne]
  · intro hs hh
    subst hs
    simp only [ResourceUri.try_from, if_pos rfl]
    rcases host with _ | h
    · rfl
    · cases h with
      | domain s => exact absurd rfl (hh s)
      | ipv4 => rfl
      | ipv6 => rfl
  · intro h hs hh hsp
    subst hs
    cases hh
    simp [ResourceUri.try_from, hsp]
  · intro h a r hs hh hsp hbad
    subst hs
    cases hh
    rcases segs with _ | ⟨_ | ⟨o, rest⟩⟩
    · simp [ResourceUri.try_from, hsp]
    · simp [ResourceUri.try_from, hsp]
    · simp only [badPath, Bool.or_eq_true, Bool.not_eq_true'] at hbad
      rcases hbad with hb | hb <;> simp [ResourceUri.try_from, hsp, hb]
  · intro h a r seg hs hh hsp hsegs hseg hq
    subst hs
    cases hh
    subst hsegs
    subst hq
    simp [ResourceUri.try_from, hsp, hseg]

/-- C2 witness: the amended order applied to a dotless host with an empty
path. -/
theorem c2_witness :
    ResourceUri.try_from
        { scheme := httpsStr, host := some (UrlHost.domain "hostnodot".data),
          path_segments := some [[]], query := none } =
      Except.error ResourceUriError.MissingAccountName :=
  (c2_validation_order _).2.2.1 "hostnodot".data rfl rfl (by decide)

/-- C7: a valid URI yields a descriptor whose `service_uri` is `https://`
followed by the host (path and query discarded), whose `object_name` is the
single path segment, whose `account_name` is the host's first dot-separated
label, and whose credential is the parsed SAS parameters of the query. -/
theorem c7_descriptor_fields (h a r seg q : Str) (cred : List (Str × Str))
    (hdot : splitOnce '.' h = some (a, r))
    (hseg : seg.isEmpty = false)
    (hsas : sasTokenParse q = some cred) :
    ResourceUri.try_from
        { scheme := httpsStr, host := some (UrlHost.domain h),
          path_segments := some [seg], query := some q } =
      Except.ok
        { service_uri := "https://".data ++ h, object_name := seg,
          account_name := a, sas_token := cred } := by
  simp [ResourceUri.try_from, hdot, hseg, hsas]

/-- C7 witness: the spec's concrete example URI. -/
theorem c7_witness :
    ResourceUri.parse
        "https://acct.blob.core.windows.net/container?sas=token".data =
      Except.ok
        { service_uri := "https://acct.blob.core.windows.net".data
          object_name := "container".data
          account_name := "acct".data
          sas_token := [("sas".data, "token".data)] } := by
  have hp : ResourceUri.parse
      "https://acct.blob.core.windows.net/container?sas=token".data =
      ResourceUri.try_from
        { scheme := httpsStr
          host := some (UrlHost.domain "acct.blob.core.windows.net".data)
          path_segments := some ["container".data]
          query := some "sas=token".data } := by decide
  rw [hp, c7_descriptor_fields "acct.blob.core.windows.net".data "acct".data
    "blob.core.windows.net".data "container".data "sas=token".data
    [("sas".data, "token".data)] (by decide) (by decide) (by decide)]
  decide

/-! ### C5, C6, C9 -/

/-- Any token the validation pipeline accepts has a non-whitespace character. -/
theorem query_token_nonblank (results : Except Unit KustoResultsV1) (s : Str)
    (h : query_kusto_identity_token results = Except.ok s) :
    s.all Char.isWhitespace = false := by
  unfold query_kusto_identity_token at h
  repeat' split at h
  all_goals simp_all

/-- C5: the validation pipeline of `query_kusto_identity_token` is ordered and
fail-fast — table count, then column presence, then row count, then
string-ness of the cell, then non-blankness; the first violated check
determines the error, and a result passing all checks yields the token. -/
theorem c5_pipeline_order (res : KustoResultsV1) :
    (res.tables.length ≠ 1 →
      query_kusto_identity_token (Except.ok res) =
        Except.error
          (KustoIdentityTokenError.ExpectedOneTable res.tables.length)) ∧
    (∀ t, res.tables = [t] →
      get_column_index t AUTHORIZATION_CONTEXT = none →
      query_kusto_identity_token (Except.ok res) =
        Except.error
          (KustoIdentityTokenError.ColumnNotFound AUTHORIZATION_CONTEXT)) ∧
    (∀ t i, res.tables = [t] →
      get_column_index t AUTHORIZATION_CONTEXT = some i →
      t.rows.length ≠ 1 →
      query_kusto_identity_token (Except.ok res) =
        Except.error (KustoIdentityTokenError.ExpectedOneRow t.rows.length)) ∧
    (∀ t i row cell, res.tables = [t] →
      get_column_index t AUTHORIZATION_CONTEXT = some i →
      t.rows = [row] → row[i]? = some cell → cell.as_str = none →
      query_kusto_identity_token (Except.ok res) =
        Except.error (KustoIdentityTokenError.InvalidJSONResponse cell)) ∧
    (∀ t i row cell s, res.tables = [t] →
      get_column_index t AUTHORIZATION_CONTEXT = some i →
      t.rows = [row] → row[i]? = some cell → cell.as_str = some s →
      s.all Char.isWhitespace = true →
      query_kusto_identity_token (Except.ok res) =
        Except.error KustoIdentityTokenError.EmptyToken) ∧
    (∀ t i row cell s, res.tables = [t] →
      get_column_index t AUTHORIZATION_CONTEXT = some i →
      t.rows = [row] → row[i]? = some cell → cell.as_str = some s →
      s.all Char.isWhitespace = false →
      query_kusto_identity_token (Except.ok res) = Except.ok s) := by
  obtain ⟨tables⟩ := res
  refine ⟨?_, ?_, ?_, ?_, ?_, ?_⟩
  · intro hn
    rcases tables with _ | ⟨a, _ | ⟨b, l⟩⟩
    · simp [query_kusto_identity_token]
    · exact absurd rfl hn
    · simp [query_kusto_identity_token]
  · intro t ht hcol
    cases ht
    simp [query_kusto_identity_token, hcol]
  · intro t i ht hcol hn
    cases ht
    obtain ⟨cols, rows⟩ := t
    rcases rows with _ | ⟨r, _ | ⟨r2, l⟩⟩
    · simp [query_kusto_identity_token, hcol]
    · exact absurd rfl hn
    · simp [query_kusto_identity_token, hcol]
  · intro t i row cell ht hcol hrows hcell hstr
    cases ht
    obtain ⟨cols, rows⟩ := t
    simp only at hrows
    cases hrows
    simp [query_kusto_identity_token, hcol, hcell, hstr]
  · intro t i row cell s ht hcol hrows hcell hstr hws
    cases ht
    obtain ⟨cols, rows⟩ := t
    simp only at hrows
    cases hrows
    simp [query_kusto_identity_token, hcol, hcell, hstr, hws]
  · intro t i row cell s ht hcol hrows hcell hstr hws
    cases ht
    obtain ⟨cols, rows⟩ := t
    simp only at hrows
    cases hrows
    simp [query_kusto_identity_token, hcol, hcell, hstr, hws]

/-- C5 witness: a result with two tables fails the first check. -/
theorem c5_witness :
    query_kusto_identity_token
        (Except.ok ⟨[⟨[], []⟩, ⟨[], []⟩]⟩) =
      Except.error (KustoIdentityTokenError.ExpectedOneTable 2) :=
  (c5_pipeline_order ⟨[⟨[], []⟩, ⟨[], []⟩]⟩).1 (by decide)

/-- C9: when the single row has no cell at the located column index, the
error is `ColumnNotFound("AuthorizationContext")` — the same variant as for
an absent column, not the invalid-response error. -/
theorem c9_short_row (t : TableV1) (i : Nat) (row : List JsonValue)
    (hcol : get_column_index t AUTHORIZATION_CONTEXT = some i)
    (hrows : t.rows = [row])
    (hshort : row[i]? = none) :
    query_kusto_identity_token (Except.ok ⟨[t]⟩) =
      Except.error
        (KustoIdentityTokenError.ColumnNotFound AUTHORIZATION_CONTEXT) ∧
    ∀ v, query_kusto_identity_token (Except.ok ⟨[t]⟩) ≠
      Except.error (KustoIdentityTokenError.InvalidJSONResponse v) := by
  obtain ⟨cols, rows⟩ := t
  simp only at hrows
  cases hrows
  constructor
  · simp [query_kusto_identity_token, hcol, hshort]
  · intro v
    simp [query_kusto_identity_token, hcol, hshort]

/-- C9 witness: one matching column, one empty row. -/
theorem c9_witness :
    query_kusto_identity_token
        (Except.ok ⟨[⟨[AUTHORIZATION_CONTEXT], [[]]⟩]⟩) =
      Except.error
        (KustoIdentityTokenError.ColumnNotFound AUTHORIZATION_CONTEXT) :=
  (c9_short_row ⟨[AUTHORIZATION_CONTEXT], [[]]⟩ 0 [] (by decide) rfl rfl).1

/-- C6: if every token in the cache is non-blank, then after any
`AuthorizationContext::get` call the cache still only holds non-blank tokens,
and any token returned is neither empty nor all-whitespace — blank candidates
are stopped by `EmptyToken` before entering the cache. -/
theorem c6_cache_nonblank (c : Cached (Option Str)) (now : Nat)
    (results : Except Unit KustoResultsV1)
    (hinv : tokenInvariant c) :
    tokenInvariant (AuthorizationContext.get c now results).cache ∧
    (∀ s, (AuthorizationContext.get c now results).result = Except.ok s →
      s ≠ [] ∧ s.all Char.isWhitespace = false) := by
  have nonblank_of_ok :
      ∀ s : Str, s.all Char.isWhitespace = false → s ≠ [] ∧
        s.all Char.isWhitespace = false := by
    intro s hs
    refine ⟨?_, hs⟩
    intro hnil
    rw [hnil] at hs
    simp at hs
  unfold AuthorizationContext.get
  cases hexp : c.is_expired now with
  | true =>
      rw [get_miss _ (Or.inl hexp)]
      cases hq : query_kusto_identity_token results with
      | error e =>
          refine ⟨hinv, ?_⟩
          intro s hs
          simp [ThreadSafeCachedValue.runCallback] at hs
      | ok v =>
          have hv := query_token_nonblank results v hq
          constructor
          · intro t ht
            simp [ThreadSafeCachedValue.runCallback, Cached.update] at ht
            cases ht
            exact hv
          · intro s hs
            simp [ThreadSafeCachedValue.runCallback] at hs
            cases hs
            exact nonblank_of_ok v hv
  | false =>
      cases hin : c.inner with
      | none =>
          rw [get_miss _ (Or.inr hin)]
          cases hq : query_kusto_identity_token results with
          | error e =>
              refine ⟨hinv, ?_⟩
              intro s hs
              simp [ThreadSafeCachedValue.runCallback] at hs
          | ok v =>
              have hv := query_token_nonblank results v hq
              constructor
              · intro t ht
                simp [ThreadSafeCachedValue.runCallback, Cached.update] at ht
                cases ht
                exact hv
              · intro s hs
                simp [ThreadSafeCachedValue.runCallback] at hs
                cases hs
                exact nonblank_of_ok v hv
      | some v =>
          rw [get_hit _ hexp hin]
          refine ⟨hinv, ?_⟩
          intro s hs
          simp only at hs
          cases hs
          exact nonblank_of_ok v (hinv v hin)

/-- C6 witness: an empty cache refreshed from a well-shaped result returns
and caches a non-blank token. -/
theorem c6_witness :
    (AuthorizationContext.get (Cached.new none 0 5) 0 goodResults).result =
      Except.ok "tok".data ∧
    ("tok".data ≠ [] ∧ ("tok".data).all Char.isWhitespace = false) ∧
    tokenInvariant
      (AuthorizationContext.get (Cached.new none 0 5) 0 goodResults).cache := by
  have h := c6_cache_nonblank (Cached.new none 0 5) 0 goodResults
    (fun t ht => Option.noConfusion ht)
  have hres : (AuthorizationContext.get (Cached.new none 0 5) 0
      goodResults).result = Except.ok "tok".data := by decide
  exact ⟨hres, h.2 "tok".data hres, h.1⟩

/-! ### C8: lemmas about the interleaving semantics -/

/-- Reading a task after `setTask`: the new task at `i`, the old elsewhere. -/
theorem get_setTask {T E : Type} (sys : Sys T E) (i j : Nat) (tk' : Task T E)
    (hj : j < (setTask sys i tk').tasks.length) (hj' : j < sys.tasks.length) :
    (setTask sys i tk').tasks.get ⟨j, hj⟩ =
      if i = j then tk' else sys.tasks.get ⟨j, hj'⟩ := by
  by_cases hij : i = j
  · subst hij
    rw [if_pos rfl]
    exact List.get_set_eq hj
  · rw [if_neg hij]
    exact List.get_set_ne hij hj

/-- `setTask` with a non-fetching task preserves `NoFetchPhases`. -/
theorem noFetch_setTask {T E : Type} {sys : Sys T E} {i : Nat}
    {tk' : Task T E} (hnf : NoFetchPhases sys)
    (hp : tk'.phase ≠ Phase.fetching) :
    NoFetchPhases (setTask sys i tk') := by
  intro j hj hfetch
  have hj' : j < sys.tasks.length := by simpa [setTask] using hj
  rw [get_setTask sys i j tk' hj hj'] at hfetch
  by_cases hij : i = j
  · rw [if_pos hij] at hfetch
    exact hp hfetch
  · rw [if_neg hij] at hfetch
    exact hnf j hj' hfetch

/-- `setTask` with a non-fetching task preserves the lock discipline. -/
theorem holdsFetchInv_setTask {T E : Type} {sys : Sys T E} {i : Nat}
    {tk' : Task T E} (hinv : holdsFetchInv sys)
    (hp : tk'.phase ≠ Phase.fetching) :
    holdsFetchInv (setTask sys i tk') := by
  intro j hj hfetch
  have hj' : j < sys.tasks.length := by simpa [setTask] using hj
  rw [get_setTask sys i j tk' hj hj'] at hfetch
  by_cases hij : i = j
  · rw [if_pos hij] at hfetch
    exact absurd hfetch hp
  · rw [if_neg hij] at hfetch
    exact hinv j hj' hfetch

/-- Acquiring the write lock for a fetch preserves the lock discipline. -/
theorem holdsFetchInv_acquire {T E : Type} {sys : Sys T E} {i : Nat}
    {tk' : Task T E} (hinv : holdsFetchInv sys) (hw : sys.writer = none) :
    holdsFetchInv { setTask sys i tk' with writer := some i } := by
  intro j hj hfetch
  have hj' : j < sys.tasks.length := by simpa [setTask] using hj
  have hget : ({ setTask sys i tk' with writer := some i } :
      Sys T E).tasks.get ⟨j, hj⟩ =
      if i = j then tk' else sys.tasks.get ⟨j, hj'⟩ :=
    get_setTask sys i j tk' hj hj'
  rw [hget] at hfetch
  by_cases hij : i = j
  · rw [hij]
  · rw [if_neg hij] at hfetch
    have := hinv j hj' hfetch
    rw [hw] at this
    exact Option.noConfusion this

/-- Completing a fetch (releasing the lock, possibly updating the cache)
preserves the lock discipline. -/
theorem holdsFetchInv_release {T E : Type} {sys : Sys T E} {i : Nat}
    {tk' : Task T E} (hinv : holdsFetchInv sys) (hi : i < sys.tasks.length)
    (hfet : (sys.tasks.get ⟨i, hi⟩).phase = Phase.fetching)
    (hp : tk'.phase ≠ Phase.fetching) (cache' : Cached (Option T)) :
    holdsFetchInv { setTask sys i tk' with writer := none, cache := cache' } := by
  intro j hj hfetch
  have hj' : j < sys.tasks.length := by simpa [setTask] using hj
  have hget : ({ setTask sys i tk' with writer := none, cache := cache' } :
      Sys T E).tasks.get ⟨j, hj⟩ =
      if i = j then tk' else sys.tasks.get ⟨j, hj'⟩ :=
    get_setTask sys i j tk' hj hj'
  rw [hget] at hfetch
  by_cases hij : i = j
  · rw [if_pos hij] at hfetch
    exact absurd hfetch hp
  · rw [if_neg hij] at hfetch
    have h1 := hinv j hj' hfetch
    have h2 := hinv i hi hfet
    rw [h1] at h2
    exact absurd (Option.some.inj h2) (fun hh => hij hh.symm)

/-- One scheduler step preserves the lock discipline. -/
theorem holdsFetchInv_step {T E : Type} {sys : Sys T E} (i : Nat)
    (hinv : holdsFetchInv sys) : holdsFetchInv (step sys i) := by
  cases hget : sys.tasks.get? i with
  | none =>
      have hs : step sys i = sys := by unfold step; rw [hget]
      rw [hs]
      exact hinv
  | some tk =>
      obtain ⟨hi, htk⟩ := List.get?_eq_some.mp hget
      have hs : step sys i = stepTask sys i tk := by unfold step; rw [hget]
      rw [hs]
      obtain ⟨ph, cb⟩ := tk
      cases ph with
      | start =>
          simp only [stepTask]
          split
          · exact hinv
          · split
            · split
              · exact holdsFetchInv_setTask hinv (by simp)
              · exact holdsFetchInv_setTask hinv (by simp)
            · exact holdsFetchInv_setTask hinv (by simp)
      | waitWrite =>
          simp only [stepTask]
          split
          · exact hinv
          · rename_i hw
            have hw' : sys.writer = none :=
              Option.not_isSome_iff_eq_none.mp (by simpa using hw)
            split
            · split
              · exact holdsFetchInv_setTask hinv (by simp)
              · exact holdsFetchInv_acquire hinv hw'
            · exact holdsFetchInv_acquire hinv hw'
      | fetching =>
          simp only [stepTask]
          cases cb with
          | error e =>
              exact holdsFetchInv_release hinv hi (by rw [htk]) (by simp)
                sys.cache
          | ok v =>
              exact holdsFetchInv_release hinv hi (by rw [htk]) (by simp)
                (sys.cache.update (some v) sys.now)
      | done r =>
          simp only [stepTask]
          exact hinv

/-- Completing a start or waitWrite task with the cached value: the shared
state is untouched, no task fetches, waiting tasks still wait or hold the
cached value, and finished tasks stay finished. -/
theorem stable_setTask_done {T E : Type} {sys : Sys T E} {i : Nat}
    {tk' : Task T E} {v' : T} (hwr : sys.writer = none)
    (hnf : NoFetchPhases sys) (hv' : sys.cache.inner = some v')
    (hph' : tk'.phase = Phase.done (Except.ok v'))
    (hOld : ∀ h : i < sys.tasks.length,
      (sys.tasks.get ⟨i, h⟩).phase = Phase.start ∨
      (sys.tasks.get ⟨i, h⟩).phase = Phase.waitWrite) :
    (setTask sys i tk').cache = sys.cache ∧
    (setTask sys i tk').now = sys.now ∧
    (setTask sys i tk').writer = none ∧
    (setTask sys i tk').tasks.length = sys.tasks.length ∧
    NoFetchPhases (setTask sys i tk') ∧
    (∀ j (hj : j < sys.tasks.length)
        (hj' : j < (setTask sys i tk').tasks.length),
      (sys.tasks.get ⟨j, hj⟩).phase = Phase.waitWrite →
      ((setTask sys i tk').tasks.get ⟨j, hj'⟩).phase = Phase.waitWrite ∨
      ∃ v, sys.cache.inner = some v ∧
        ((setTask sys i tk').tasks.get ⟨j, hj'⟩).phase =
          Phase.done (Except.ok v)) ∧
    (∀ j (hj : j < sys.tasks.length)
        (hj' : j < (setTask sys i tk').tasks.length) (r : Except E T),
      (sys.tasks.get ⟨j, hj⟩).phase = Phase.done r →
      ((setTask sys i tk').tasks.get ⟨j, hj'⟩).phase = Phase.done r) := by
  refine ⟨rfl, rfl, hwr, by simp [setTask],
    noFetch_setTask hnf (by simp [hph']), ?_, ?_⟩
  · intro j hj hj' hw
    rw [get_setTask sys i j tk' hj' hj]
    by_cases hij : i = j
    · rw [if_pos hij]
      exact Or.inr ⟨v', hv', hph'⟩
    · rw [if_neg hij]
      exact Or.inl hw
  · intro j hj hj' r hd
    rw [get_setTask sys i j tk' hj' hj]
    by_cases hij : i = j
    · subst hij
      rcases hOld hj with ho | ho <;> rw [hd] at ho <;>
        exact absurd ho (by simp)
    · rw [if_neg hij]
      exact hd

/-- One scheduler step from a fresh, writer-free, fetch-free state: the
shared state is unchanged, no task becomes fetching, a waiting task either
still waits or completes with the cached value, and finished tasks stay
finished. -/
theorem stable_step {T E : Type} {sys : Sys T E} (i : Nat)
    (hfr : freshNoWriter sys) (hnf : NoFetchPhases sys) :
    (step sys i).cache = sys.cache ∧
    (step sys i).now = sys.now ∧
    (step sys i).writer = none ∧
    (step sys i).tasks.length = sys.tasks.length ∧
    NoFetchPhases (step sys i) ∧
    (∀ j (hj : j < sys.tasks.length) (hj' : j < (step sys i).tasks.length),
      (sys.tasks.get ⟨j, hj⟩).phase = Phase.waitWrite →
      ((step sys i).tasks.get ⟨j, hj'⟩).phase = Phase.waitWrite ∨
      ∃ v, sys.cache.inner = some v ∧
        ((step sys i).tasks.get ⟨j, hj'⟩).phase = Phase.done (Except.ok v)) ∧
    (∀ j (hj : j < sys.tasks.length) (hj' : j < (step sys i).tasks.length)
        (r : Except E T),
      (sys.tasks.get ⟨j, hj⟩).phase = Phase.done r →
      ((step sys i).tasks.get ⟨j, hj'⟩).phase = Phase.done r) := by
  obtain ⟨hinner, hexp, hwr⟩ := hfr
  obtain ⟨v, hv⟩ := Option.ne_none_iff_exists'.mp hinner
  cases hget : sys.tasks.get? i with
  | none =>
      have hs : step sys i = sys := by unfold step; rw [hget]
      rw [hs]
      exact ⟨rfl, rfl, hwr, rfl, hnf, fun j hj hj' hw => Or.inl hw,
        fun j hj hj' r hd => hd⟩
  | some tk =>
      obtain ⟨hi, htk⟩ := List.get?_eq_some.mp hget
      have hs : step sys i = stepTask sys i tk := by unfold step; rw [hget]
      rw [hs]
      obtain ⟨ph, cb⟩ := tk
      have htkAll : ∀ h : i < sys.tasks.length,
          sys.tasks.get ⟨i, h⟩ = ⟨ph, cb⟩ := fun h => htk
      cases ph with
      | start =>
          have hred : stepTask sys i ⟨Phase.start, cb⟩ =
              setTask sys i ⟨Phase.done (Except.ok v), cb⟩ := by
            simp [stepTask, hwr, hexp, Cached.get, hv]
          rw [hred]
          exact stable_setTask_done hwr hnf hv rfl
            (fun h => Or.inl (by rw [htkAll h]))
      | waitWrite =>
          have hred : stepTask sys i ⟨Phase.waitWrite, cb⟩ =
              setTask sys i ⟨Phase.done (Except.ok v), cb⟩ := by
            simp [stepTask, hwr, hexp, Cached.get, hv]
          rw [hred]
          exact stable_setTask_done hwr hnf hv rfl
            (fun h => Or.inr (by rw [htkAll h]))
      | fetching =>
          exact absurd (by rw [htkAll hi]) (hnf i hi)
      | done r =>
          have hred : stepTask sys i ⟨Phase.done r, cb⟩ = sys := by
            simp [stepTask]
          rw [hred]
          exact ⟨rfl, rfl, hwr, rfl, hnf, fun j hj hj' hw => Or.inl hw,
            fun j hj hj' r' hd => hd⟩

/-- Any schedule preserves the lock discipline. -/
theorem holdsFetchInv_run {T E : Type} {sys : Sys T E} (l : List Nat)
    (hinv : holdsFetchInv sys) : holdsFetchInv (run sys l) := by
  induction l generalizing sys with
  | nil => exact hinv
  | cons i rest ih => exact ih (holdsFetchInv_step i hinv)

/-- Any schedule from a fresh, writer-free, fetch-free state: the cache is
unchanged, no task ever fetches, a waiting task still waits or completes
with the cached value, and finished tasks stay finished. -/
theorem stable_run {T E : Type} {sys : Sys T E} (l : List Nat)
    (hfr : freshNoWriter sys) (hnf : NoFetchPhases sys) :
    (run sys l).cache = sys.cache ∧
    (run sys l).tasks.length = sys.tasks.length ∧
    NoFetchPhases (run sys l) ∧
    (∀ j (hj : j < sys.tasks.length) (hj' : j < (run sys l).tasks.length),
      (sys.tasks.get ⟨j, hj⟩).phase = Phase.waitWrite →
      ((run sys l).tasks.get ⟨j, hj'⟩).phase = Phase.waitWrite ∨
      ∃ v, sys.cache.inner = some v ∧
        ((run sys l).tasks.get ⟨j, hj'⟩).phase = Phase.done (Except.ok v)) ∧
    (∀ j (hj : j < sys.tasks.length) (hj' : j < (run sys l).tasks.length)
        (r : Except E T),
      (sys.tasks.get ⟨j, hj⟩).phase = Phase.done r →
      ((run sys l).tasks.get ⟨j, hj'⟩).phase = Phase.done r) := by
  induction l generalizing sys with
  | nil =>
      exact ⟨rfl, rfl, hnf, fun j hj hj' hw => Or.inl hw,
        fun j hj hj' r hd => hd⟩
  | cons i rest ih =>
      obtain ⟨hc, hn, hw, hlen, hnf', hwait, hdone⟩ := stable_step i hfr hnf
      have hfr' : freshNoWriter (step sys i) := by
        refine ⟨?_, ?_, hw⟩
        · rw [hc]
          exact hfr.1
        · rw [hc, hn]
          exact hfr.2.1
      obtain ⟨ihc, ihlen, ihnf, ihwait, ihdone⟩ := ih hfr' hnf'
      refine ⟨?_, ?_, ihnf, ?_, ?_⟩
      · show (run (step sys i) rest).cache = sys.cache
        rw [ihc, hc]
      · show (run (step sys i) rest).tasks.length = sys.tasks.length
        rw [ihlen, hlen]
      · intro j hj hj' hwW
        have hjs : j < (step sys i).tasks.length := by rw [hlen]; exact hj
        rcases hwait j hj hjs hwW with hcase | ⟨v, hv, hcase⟩
        · rcases ihwait j hjs hj' hcase with hcase' | ⟨v, hv', hcase'⟩
          · exact Or.inl hcase'
          · refine Or.inr ⟨v, ?_, hcase'⟩
            rw [← hc]
            exact hv'
        · exact Or.inr ⟨v, hv, ihdone j hjs hj' (Except.ok v) hcase⟩
      · intro j hj hj' r hd
        have hjs : j < (step sys i).tasks.length := by rw [hlen]; exact hj
        exact ihdone j hjs hj' r (hdone j hj hjs r hd)

/-! ### C8 -/

/-- C8: under any interleaving, the lock discipline implies at most one task
is running its fetch callback at any time; and from the state right after a
successful refresh (fresh value, write lock free), no task ever invokes a
fetch, the cache is untouched, and every task that was waiting for the write
lock either still waits or has returned the cached value from the re-check
step. -/
theorem c8_lock_discipline (T E : Type) (sys : Sys T E) (l : List Nat)
    (hinv : holdsFetchInv sys) :
    (∀ i j hi hj, ((run sys l).tasks.get ⟨i, hi⟩).phase = Phase.fetching →
      ((run sys l).tasks.get ⟨j, hj⟩).phase = Phase.fetching → i = j) ∧
    (freshNoWriter sys →
      (run sys l).cache = sys.cache ∧
      NoFetchPhases (run sys l) ∧
      (∀ j (hj : j < sys.tasks.length)
          (hj' : j < (run sys l).tasks.length),
        (sys.tasks.get ⟨j, hj⟩).phase = Phase.waitWrite →
        ((run sys l).tasks.get ⟨j, hj'⟩).phase = Phase.waitWrite ∨
        ∃ v, sys.cache.inner = some v ∧
          ((run sys l).tasks.get ⟨j, hj'⟩).phase =
            Phase.done (Except.ok v))) := by
  constructor
  · intro i j hi hj hfi hfj
    have hrun := holdsFetchInv_run l hinv
    have h1 := hrun i hi hfi
    have h2 := hrun j hj hfj
    rw [h1] at h2
    exact Option.some.inj h2
  · intro hfr
    have hnf : NoFetchPhases sys := by
      intro j hj hfetch
      have hcon := hinv j hj hfetch
      rw [hfr.2.2] at hcon
      exact Option.noConfusion hcon
    obtain ⟨hc, hlen, hnf', hwait, hdone⟩ := stable_run l hfr hnf
    exact ⟨hc, hnf', hwait⟩

/-- C8 witness: in the concrete two-task scenario, running the schedule
leaves the cache untouched and the waiting task completes with the cached
value without fetching. -/
theorem c8_witness :
    (run sysW [0, 1]).cache = sysW.cache ∧
    ((run sysW [0, 1]).tasks.get ⟨0, (by decide)⟩).phase ≠
      Phase.fetching ∧
    ((run sysW [0, 1]).tasks.get ⟨0, (by decide)⟩).phase =
      Phase.done (Except.ok 5) := by
  have h := (c8_lock_discipline Nat Unit sysW [0, 1]
    (by unfold holdsFetchInv; decide)).2
    (by unfold freshNoWriter; decide)
  refine ⟨h.1, h.2.1 0 (by decide), ?_⟩
  rcases h.2.2 0 (by decide) (by decide) (by decide) with hcase | ⟨v, hv, hcase⟩
  · exact absurd hcase (by decide)
  · have hv5 : v = 5 := by
      have : (some 5 : Option Nat) = some v := hv
      exact (Option.some.inj this).symm
    rw [hv5] at hcase
    exact hcase

end KustoVerify
